import Mathlib

/-!
A shallow embedding of the 0FluffRead client core (the settings-based variant
of the script, whose `loadFeed` / `loadAllFeeds` / `getFeeds` / `addFeed` /
`removeFeed` functions are modelled below), together with theorems checking
the natural-language specification against it.

Modelling conventions:
* `fetch` and the proxy are an environment `env : Nat → AttemptOutcome`
  giving the outcome of the n-th fetch call for a URL.
* The `while` retry loop of `loadFeed` runs on explicit fuel; running out of
  fuel (`LoopOutcome.outOfFuel`) means the loop is still running after that
  many iterations, which is how non-termination is observed.
* `new Date(s).getTime()` is an abstract parse `pd : String → Option Int`
  (milliseconds; `none` is an Invalid Date, i.e. `NaN`).
* `new URL(u).hostname` is an abstract `hostname : String → String`.
* `Array.prototype.sort` is modelled as a stable comparator-driven sort
  (insertion sort); per the ECMAScript `SortCompare` step, a `NaN`
  comparator result is treated as `+0`.
* `localStorage` is the optional string stored under the single key, and
  `JSON.parse` is an abstract `parse : String → ParseOutcome` where `err`
  stands for a thrown parse exception.
-/

namespace FluffRead

/-- Message severity accepted by `showMessage`. -/
inductive MsgType where
  | success
  | error
  | warning
deriving DecidableEq, Repr

/-- Feed metadata object of the proxy payload (`data.feed`); the client only
reads its `title` field. -/
structure Feed where
  title : String
deriving DecidableEq, Repr

/-- One article item of the proxy payload. `feedTitle` is `none` until
`loadFeed` stamps it (`item.feedTitle = feedTitle`). -/
structure Item where
  title : String
  link : String
  pubDate : String
  feedTitle : Option String
deriving DecidableEq, Repr

def dummyItem : Item := ⟨"", "", "", none⟩

/-- The JSON body of an HTTP-success response from the proxy. `items` is
`none` when the `items` field is absent or null (falsy in JS; an empty array
is truthy, hence `some []`). `feed` is `none` when the `feed` object is
absent, in which case reading `.title` from it throws. -/
structure FeedData where
  status : String
  feed : Option Feed
  items : Option (List Item)
deriving DecidableEq, Repr

/-- Outcome of one `fetch(proxyUrl)` call as observed inside the `try` block
of `loadFeed`: the promise rejects or `response.json()` throws
(`transportError`), `response.ok` is false (`httpError`), or a parsed JSON
body arrives (`payload`). -/
inductive AttemptOutcome where
  | transportError
  | httpError
  | payload (d : FeedData)
deriving DecidableEq, Repr

def MAX_RETRIES : Nat := 3

def DEFAULT_FEEDS : List String :=
  ["https://www.theverge.com/rss/index.xml", "https://www.engadget.com/rss.xml"]

/-- What `loadFeed` hands back to `loadAllFeeds`: the stamped payload
(`success`) or `null` (`failure`). -/
inductive LoadResult where
  | success (feed : Feed) (items : List Item)
  | failure
deriving DecidableEq, Repr

/-- Result of running the retry loop of `loadFeed` with bounded fuel: either
the function returned, having made `fetches` fetch calls and performed the
backoff `waits` (in milliseconds), or the fuel ran out with the loop still
running in state (`fetches`, `attempt`, `waits`). -/
inductive LoopOutcome where
  | finished (r : LoadResult) (fetches : Nat) (waits : List Nat)
  | outOfFuel (fetches : Nat) (attempt : Nat) (waits : List Nat)
deriving DecidableEq, Repr

/-- `data.items.forEach(item => { item.feedTitle = feedTitle; })`. -/
def stampItems (t : String) (items : List Item) : List Item :=
  items.map fun it => { it with feedTitle := some t }

/-- `data.feed.title || new URL(rssUrl).hostname` (an empty title is falsy). -/
def resolveFeedTitle (hostname : String → String) (rssUrl : String) (f : Feed) : String :=
  if f.title = "" then hostname rssUrl else f.title

/-- How one iteration of the `while` loop classifies the fetch outcome. -/
inductive IterClass where
  | success (f : Feed) (items : List Item)
  | caught
  | weird
deriving DecidableEq, Repr

/-- Classification of one loop iteration of `loadFeed`:
* a rejected fetch, a failed `response.json()`, or `!response.ok` throws and
  is caught (`caught`);
* `data.status === 'ok' && data.items` with a `feed` object present returns
  the data (`success`); with `feed` absent, `data.feed.title` throws a
  TypeError which is caught (`caught`);
* otherwise `data.status === 'error'` throws (`caught`);
* any other payload falls through both branches and the loop body ends
  without touching `attempt` (`weird`). -/
def attemptClass (out : AttemptOutcome) : IterClass :=
  match out with
  | .transportError => .caught
  | .httpError => .caught
  | .payload d =>
    if d.status = "ok" ∧ d.items.isSome then
      match d.feed with
      | some f => .success f (d.items.getD [])
      | none => .caught
    else if d.status = "error" then .caught
    else .weird

/-- The `while (attempt < MAX_RETRIES)` loop of `loadFeed`. On a caught
error: `attempt++`; if `attempt >= MAX_RETRIES` return `null`, else wait
`Math.pow(2, attempt) * 1000` milliseconds and loop. On success, return the
stamped data. On the fall-through path, loop again with `attempt` and the
waits untouched. Exiting the `while` returns `null`. -/
def loadFeedLoop (env : Nat → AttemptOutcome) (hostname : String → String) (rssUrl : String) :
    Nat → Nat → List Nat → Nat → LoopOutcome
  | fetches, attempt, waits, 0 => .outOfFuel fetches attempt waits
  | fetches, attempt, waits, fuel+1 =>
    if attempt < MAX_RETRIES then
      match attemptClass (env fetches) with
      | .success f items =>
        .finished (.success f (stampItems (resolveFeedTitle hostname rssUrl f) items))
          (fetches + 1) waits
      | .caught =>
        if attempt + 1 ≥ MAX_RETRIES then
          .finished .failure (fetches + 1) waits
        else
          loadFeedLoop env hostname rssUrl (fetches + 1) (attempt + 1)
            (waits ++ [2 ^ (attempt + 1) * 1000]) fuel
      | .weird => loadFeedLoop env hostname rssUrl (fetches + 1) attempt waits fuel
    else
      .finished .failure fetches waits

/-- `async function loadFeed(rssUrl)`: `if (!rssUrl) return null;` then the
retry loop. -/
def loadFeed (env : Nat → AttemptOutcome) (hostname : String → String)
    (rssUrl : String) (fuel : Nat) : LoopOutcome :=
  if rssUrl = "" then .finished .failure 0 []
  else loadFeedLoop env hostname rssUrl 0 0 [] fuel

/-- Number of fetch calls recorded in a loop outcome. -/
def fetchesOf : LoopOutcome → Nat
  | .finished _ n _ => n
  | .outOfFuel n _ _ => n

/-- Backoff waits (milliseconds) recorded in a loop outcome. -/
def waitsOf : LoopOutcome → List Nat
  | .finished _ _ w => w
  | .outOfFuel _ _ w => w

/-- The returned value, when the loop finished. -/
def resultOf : LoopOutcome → Option LoadResult
  | .finished r _ _ => some r
  | .outOfFuel _ _ _ => none

/-- The sort comparator `(a, b) => new Date(b.pubDate) - new Date(a.pubDate)`.
When either date is invalid the subtraction yields `NaN`, which the
ECMAScript `SortCompare` step turns into `+0`. -/
def jsCmp (pd : String → Option Int) (a b : Item) : Int :=
  match pd b.pubDate, pd a.pubDate with
  | some db, some da => db - da
  | _, _ => 0

/-- The element order the comparator induces on the sort: `a` may stay left
of `b` when the comparator does not demand the swap. -/
def jsLe (pd : String → Option Int) (a b : Item) : Bool :=
  jsCmp pd a b ≤ 0

/-- `allItems.sort(comparator)`, modelled as a stable comparator-driven
sort (insertion sort, which is also the algorithm V8 applies to short
arrays): an element is placed before the first element the comparator does
not require it to follow. -/
def jsSortItems (pd : String → Option Int) (items : List Item) : List Item :=
  List.insertionSort (fun a b => jsLe pd a b = true) items

/-- The state of `feedContainer` after a load cycle: cleared via
`innerHTML = ''` on the empty-input early return, the no-articles
placeholder rendered by `renderFeed` on an empty item list, or the article
cards. -/
inductive Container where
  | emptyCleared
  | emptyState
  | articles (items : List Item) (feeds : List Feed)
deriving DecidableEq, Repr

/-- `renderFeed(items, feedSources)`: an empty item list renders the
placeholder, otherwise the summary plus one card per item, in order. -/
def renderFeed (items : List Item) (feeds : List Feed) : Container :=
  if items.isEmpty then .emptyState else .articles items feeds

/-- The sequence of articles shown in the container. -/
def renderedSeq : Container → List Item
  | .articles items _ => items
  | _ => []

/-- Observable result of one `loadAllFeeds` invocation. -/
structure AggResult where
  container : Container
  message : String × MsgType
  fetchCalls : Nat
deriving DecidableEq, Repr

/-- One `loadFeed(url)` promise as awaited by `Promise.all`: its settled
value and the number of fetch calls it made, or `none` if it never settles
within the fuel. -/
def runOne (env : String → Nat → AttemptOutcome) (hostname : String → String)
    (fuel : Nat) (u : String) : Option (LoadResult × Nat) :=
  match loadFeed (env u) hostname u fuel with
  | .finished r n _ => some (r, n)
  | .outOfFuel _ _ _ => none

/-- `await Promise.all(feedUrls.map(url => loadFeed(url)))`: all settle, or
the whole aggregation never proceeds. -/
def runAll (env : String → Nat → AttemptOutcome) (hostname : String → String)
    (fuel : Nat) : List String → Option (List (LoadResult × Nat))
  | [] => some []
  | u :: us =>
    match runOne env hostname fuel u, runAll env hostname fuel us with
    | some p, some ps => some (p :: ps)
    | _, _ => none

/-- `results.filter(result => result !== null)`, keeping payload shape. -/
def successesOf (results : List (LoadResult × Nat)) : List (Feed × List Item) :=
  results.filterMap fun p =>
    match p.1 with
    | .success f its => some (f, its)
    | .failure => none

/-- `async function loadAllFeeds()` of the settings-based variant, taking the
URL list `getFeeds()` returned. Empty list: warning message, container
cleared, no fetch. Otherwise: fetch all concurrently, keep the non-null
results, concatenate their items in input order, sort with the date
comparator, and render with a success or total-failure message. -/
def loadAllFeeds (pd : String → Option Int) (env : String → Nat → AttemptOutcome)
    (hostname : String → String) (fuel : Nat) (feedUrls : List String) :
    Option AggResult :=
  if feedUrls.isEmpty then
    some ⟨.emptyCleared, ("No feeds configured. Open Settings to add a URL.", .warning), 0⟩
  else
    match runAll env hostname fuel feedUrls with
    | none => none
    | some results =>
      let successfulLoads := successesOf results
      let allItems := (successfulLoads.map fun p => p.2).flatten
      let sorted := jsSortItems pd allItems
      let fetchTotal := (results.map fun p => p.2).sum
      if successfulLoads.length > 0 then
        let n := successfulLoads.length
        let m := allItems.length
        some ⟨renderFeed sorted (successfulLoads.map fun p => p.1),
          (s!"Successfully loaded {n} feed(s) with {m} total articles.", .success),
          fetchTotal⟩
      else
        some ⟨renderFeed [] [],
          ("Failed to load any of the requested feeds after all retries. Open Settings to verify URLs.", .error),
          fetchTotal⟩

/-- The article sequence a `loadAllFeeds` invocation rendered (empty when it
never completed). -/
def renderedOf (o : Option AggResult) : List Item :=
  match o with
  | some r => renderedSeq r.container
  | none => []

/-- What `JSON.parse` did to the stored string: produced a value (`ok`) or
threw (`err`). -/
inductive ParseOutcome where
  | ok (feeds : List String)
  | err
deriving DecidableEq, Repr

/-- `getFeeds()`: read the stored value under the single storage key; a
missing or empty (falsy) value yields the defaults without parsing; a parse
exception is caught and yields the defaults. -/
def getFeeds (parse : String → ParseOutcome) (stored : Option String) : List String :=
  match stored with
  | none => DEFAULT_FEEDS
  | some s =>
    if s = "" then DEFAULT_FEEDS
    else
      match parse s with
      | .ok v => v
      | .err => DEFAULT_FEEDS

/-- `url.substring(0, n)` for a non-negative clamp-only use. -/
def jsSubstring0 (s : String) (n : Nat) : String :=
  (s.toList.take n).asString

/-- `inputValue.trim()`: strip leading and trailing whitespace. -/
def jsTrim (s : String) : String :=
  ((s.toList.dropWhile Char.isWhitespace).reverse.dropWhile Char.isWhitespace).reverse.asString

/-- Observable result of one `addFeed()` invocation: the persisted list, the
message shown, and the remaining content of the input box. -/
structure AddResult where
  feeds : List String
  message : String × MsgType
  inputValue : String
deriving DecidableEq, Repr

/-- `addFeed()`: trim the input; empty input warns; a duplicate warns with
"Feed URL already exists." and does not save; otherwise push, save and
report success. -/
def addFeed (inputValue : String) (currentFeeds : List String) : AddResult :=
  let url := jsTrim inputValue
  if url = "" then
    ⟨currentFeeds, ("Feed URL cannot be empty.", .warning), inputValue⟩
  else if url ∈ currentFeeds then
    ⟨currentFeeds, ("Feed URL already exists.", .warning), ""⟩
  else
    ⟨currentFeeds ++ [url],
      ("Feed added: " ++ jsSubstring0 url 30 ++ "...", .success), ""⟩

/-- Observable result of one `removeFeed(index)` invocation: the list handed
to `saveFeeds`, whether the success-message formatting threw a TypeError
(`urlToRemove.substring` on `undefined`), and the message otherwise shown. -/
structure RemoveResult where
  persisted : List String
  threw : Bool
  message : Option (String × MsgType)
deriving DecidableEq, Repr

/-- `removeFeed(index)`: `currentFeeds[index]` is `undefined` out of range
(`none`); `splice(index, 1)` with a non-negative index removes at most the
one element at `index`; the new list is saved and the list re-rendered
before the message is formatted, so an out-of-range call persists first and
throws afterwards. -/
def removeFeed (currentFeeds : List String) (index : Nat) : RemoveResult :=
  let urlToRemove := currentFeeds.get? index
  let newFeeds := currentFeeds.take index ++ currentFeeds.drop (index + 1)
  match urlToRemove with
  | some u => ⟨newFeeds, false, some ("Feed removed: " ++ jsSubstring0 u 30 ++ "...", .success)⟩
  | none => ⟨newFeeds, true, none⟩

/-- The failure modes named by the retry policy: a transport error, a
non-success HTTP status, or an error status embedded in the payload. -/
def isFailing : AttemptOutcome → Bool
  | .transportError => true
  | .httpError => true
  | .payload d => d.status == "error"

/-- The settled payload of a successful `loadFeed` run for one URL. -/
def succOf (env : String → Nat → AttemptOutcome) (hostname : String → String)
    (fuel : Nat) (u : String) : Option (Feed × List Item) :=
  match loadFeed (env u) hostname u fuel with
  | .finished (.success f its) _ _ => some (f, its)
  | _ => none

/-- Concatenation, in input order, of the article sequences delivered by the
feeds whose `loadFeed` run succeeded. -/
def successItems (env : String → Nat → AttemptOutcome) (hostname : String → String)
    (fuel : Nat) (urls : List String) : List Item :=
  ((urls.filterMap (succOf env hostname fuel)).map fun p => p.2).flatten

/-- `a` has a strictly more recent parseable timestamp than `b`. -/
def dateGT (pd : String → Option Int) (a b : Item) : Bool :=
  match pd a.pubDate, pd b.pubDate with
  | some da, some db => decide (db < da)
  | _, _ => false

/-- The ordering property the specification claims of the rendered sequence:
whenever the article at position `i` has a strictly greater parseable
timestamp than the article at position `j`, position `i` comes first. -/
def sortedByDateDesc (pd : String → Option Int) (l : List Item) : Prop :=
  ∀ i, i < l.length → ∀ j, j < l.length →
    dateGT pd (l.getD i dummyItem) (l.getD j dummyItem) = true → i < j

/-! ## Fetcher lemmas -/

theorem attemptClass_of_failing {o : AttemptOutcome} (h : isFailing o = true) :
    attemptClass o = .caught := by
  cases o with
  | transportError => rfl
  | httpError => rfl
  | payload d =>
    have hs : d.status = "error" := by simpa [isFailing] using h
    simp [attemptClass, hs]

theorem loadFeedLoop_allFail (env : Nat → AttemptOutcome) (hostname : String → String)
    (url : String) (hf : ∀ n, isFailing (env n) = true) (k : Nat) :
    loadFeedLoop env hostname url 0 0 [] (k + 3) =
      .finished .failure 3 [2000, 4000] := by
  have h0 := attemptClass_of_failing (hf 0)
  have h1 := attemptClass_of_failing (hf 1)
  have h2 := attemptClass_of_failing (hf 2)
  show loadFeedLoop env hostname url 0 0 [] (k + 2 + 1) = _
  rw [loadFeedLoop]
  simp only [MAX_RETRIES, h0, h1, h2]
  norm_num
  show loadFeedLoop env hostname url 1 1 [2 ^ 1 * 1000] (k + 1 + 1) = _
  rw [loadFeedLoop]
  simp only [MAX_RETRIES, h1]
  norm_num
  show loadFeedLoop env hostname url 2 2 [2 ^ 1 * 1000, 2 ^ 2 * 1000] (k + 1) = _
  cases k with
  | zero =>
    rw [loadFeedLoop]
    simp [MAX_RETRIES, h2]
  | succ k =>
    rw [loadFeedLoop]
    simp [MAX_RETRIES, h2]

theorem loadFeed_allFail (env : Nat → AttemptOutcome) (hostname : String → String)
    (url : String) (hu : url ≠ "") (hf : ∀ n, isFailing (env n) = true)
    {fuel : Nat} (hfuel : 3 ≤ fuel) :
    loadFeed env hostname url fuel = .finished .failure 3 [2000, 4000] := by
  obtain ⟨k, rfl⟩ : ∃ k, fuel = k + 3 := ⟨fuel - 3, by omega⟩
  rw [loadFeed, if_neg hu, loadFeedLoop_allFail env hostname url hf k]

/-- C2: for every feed URL for which every fetch attempt fails in one of the
specified ways (transport error, non-success HTTP status, or an error status
embedded in the payload), the Fetcher makes exactly 3 fetch calls and then
settles the load as the permanent failure `null`. -/
theorem loadFeed_exhausts_three_attempts (env : Nat → AttemptOutcome)
    (hostname : String → String) (url : String) (fuel : Nat) (hu : url ≠ "")
    (hf : ∀ n, isFailing (env n) = true) (hfuel : 3 ≤ fuel) :
    fetchesOf (loadFeed env hostname url fuel) = 3 ∧
    resultOf (loadFeed env hostname url fuel) = some .failure := by
  rw [loadFeed_allFail env hostname url hu hf hfuel]
  exact ⟨rfl, rfl⟩

theorem loadFeed_exhausts_three_attempts_witness :
    ("https://a.example/rss" ≠ "" ∧ 3 ≤ 3) ∧
    fetchesOf (loadFeed (fun _ => .transportError) (fun _ => "a.example")
        "https://a.example/rss" 3) = 3 ∧
    resultOf (loadFeed (fun _ => .transportError) (fun _ => "a.example")
        "https://a.example/rss" 3) = some .failure :=
  ⟨⟨by decide, by decide⟩,
    loadFeed_exhausts_three_attempts (fun _ => .transportError) (fun _ => "a.example")
      "https://a.example/rss" 3 (by decide) (fun _ => rfl) (by decide)⟩

/-- C3: when every fetch attempt fails, the Fetcher waits exactly
`2 ^ i` seconds after failed attempt `i` (1-indexed, `i < 3`): 2 seconds
(2000 ms) before attempt 2 and 4 seconds (4000 ms) before attempt 3, and the
wait list has exactly those two entries, so no wait happens after the final
attempt. -/
theorem loadFeed_backoff_waits (env : Nat → AttemptOutcome)
    (hostname : String → String) (url : String) (fuel : Nat) (hu : url ≠ "")
    (hf : ∀ n, isFailing (env n) = true) (hfuel : 3 ≤ fuel) :
    waitsOf (loadFeed env hostname url fuel) = [2 * 1000, 4 * 1000] := by
  rw [loadFeed_allFail env hostname url hu hf hfuel]
  rfl

theorem loadFeed_backoff_waits_witness :
    ("https://a.example/rss" ≠ "" ∧ 3 ≤ 3) ∧
    waitsOf (loadFeed (fun _ => .httpError) (fun _ => "a.example")
        "https://a.example/rss" 3) = [2 * 1000, 4 * 1000] :=
  ⟨⟨by decide, by decide⟩,
    loadFeed_backoff_waits (fun _ => .httpError) (fun _ => "a.example")
      "https://a.example/rss" 3 (by decide) (fun _ => rfl) (by decide)⟩

theorem attemptClass_weird {d : FeedData} (hok : ¬(d.status = "ok" ∧ d.items.isSome))
    (herr : d.status ≠ "error") : attemptClass (.payload d) = .weird := by
  simp [attemptClass, hok, herr]

theorem loadFeedLoop_weird (d : FeedData) (hok : ¬(d.status = "ok" ∧ d.items.isSome))
    (herr : d.status ≠ "error") (hostname : String → String) (url : String) :
    ∀ fuel fetches, loadFeedLoop (fun _ => .payload d) hostname url fetches 0 [] fuel =
      .outOfFuel (fetches + fuel) 0 []
  | 0, fetches => by simp [loadFeedLoop]
  | fuel+1, fetches => by
    rw [loadFeedLoop]
    simp only [MAX_RETRIES, attemptClass_weird hok herr]
    norm_num
    rw [loadFeedLoop_weird d hok herr hostname url fuel (fetches + 1)]
    congr 1
    omega

/-- C9 (implicit): an HTTP-success response whose JSON body has a status
that is neither the error discriminator nor the success shape (status "ok"
with an items array) makes the retry loop of `loadFeed` spin forever: for
every fuel bound the loop is still running, having made one fetch per
iteration, with the attempt counter still 0 and no backoff wait performed,
so the 3-attempt bound never applies on this path. -/
theorem loadFeed_weird_payload_never_terminates (d : FeedData)
    (hok : ¬(d.status = "ok" ∧ d.items.isSome)) (herr : d.status ≠ "error")
    (hostname : String → String) (url : String) (hu : url ≠ "") (fuel : Nat) :
    loadFeed (fun _ => .payload d) hostname url fuel = .outOfFuel fuel 0 [] := by
  rw [loadFeed, if_neg hu, loadFeedLoop_weird d hok herr hostname url fuel 0,
    Nat.zero_add]

theorem loadFeed_weird_payload_never_terminates_witness :
    (¬(("ok" : String) = "ok" ∧ (none : Option (List Item)).isSome) ∧
      ("ok" : String) ≠ "error" ∧ ("https://a.example/rss" : String) ≠ "") ∧
    loadFeed (fun _ => .payload ⟨"ok", some ⟨"T"⟩, none⟩) (fun _ => "a.example")
        "https://a.example/rss" 5 = .outOfFuel 5 0 [] :=
  ⟨⟨by decide, by decide, by decide⟩,
    loadFeed_weird_payload_never_terminates ⟨"ok", some ⟨"T"⟩, none⟩
      (by decide) (by decide) (fun _ => "a.example") "https://a.example/rss"
      (by decide) 5⟩

/-! ## Storage and settings theorems -/

/-- C7: whenever the feed-list key is absent from client-local storage, or
holds a string on which the JSON parse throws, `getFeeds` returns the two
hard-coded default feed URLs; the parse exception is caught inside
`getFeeds`, which is a total function here, so nothing propagates to the
caller. -/
theorem getFeeds_falls_back_to_defaults (parse : String → ParseOutcome)
    (stored : Option String)
    (h : stored = none ∨ ∃ s, stored = some s ∧ parse s = .err) :
    getFeeds parse stored = DEFAULT_FEEDS := by
  rcases h with rfl | ⟨s, rfl, hp⟩
  · rfl
  · by_cases hs : s = "" <;> simp [getFeeds, hs, hp]

theorem getFeeds_falls_back_to_defaults_witness :
    ((some "not json" : Option String) = none ∨
      ∃ s, (some "not json" : Option String) = some s ∧
        (fun _ : String => ParseOutcome.err) s = .err) ∧
    getFeeds (fun _ => ParseOutcome.err) (some "not json") = DEFAULT_FEEDS :=
  ⟨Or.inr ⟨"not json", rfl, rfl⟩,
    getFeeds_falls_back_to_defaults (fun _ => ParseOutcome.err) (some "not json")
      (Or.inr ⟨"not json", rfl, rfl⟩)⟩

/-- C8: adding a URL that is already present in the persisted feed list
leaves the stored list unchanged (same elements in the same order, hence the
same length) and surfaces the "Feed URL already exists." warning. The URL is
taken in its trimmed, non-empty form, as the input field delivers it past
the empty-input guard. -/
theorem addFeed_duplicate_noop (url : String) (feeds : List String)
    (htrim : jsTrim url = url) (hne : url ≠ "") (hmem : url ∈ feeds) :
    (addFeed url feeds).feeds = feeds ∧
    (addFeed url feeds).message = ("Feed URL already exists.", .warning) := by
  simp [addFeed, htrim, hne, hmem]

theorem addFeed_duplicate_noop_witness :
    (jsTrim "https://a.example/rss" = "https://a.example/rss" ∧
      ("https://a.example/rss" : String) ≠ "" ∧
      "https://a.example/rss" ∈ ["https://a.example/rss", "https://b.example/rss"]) ∧
    (addFeed "https://a.example/rss"
        ["https://a.example/rss", "https://b.example/rss"]).feeds =
      ["https://a.example/rss", "https://b.example/rss"] ∧
    (addFeed "https://a.example/rss"
        ["https://a.example/rss", "https://b.example/rss"]).message =
      ("Feed URL already exists.", .warning) :=
  ⟨⟨by decide, by decide, by decide⟩,
    addFeed_duplicate_noop "https://a.example/rss"
      ["https://a.example/rss", "https://b.example/rss"]
      (by decide) (by decide) (by decide)⟩

/-- C10 (implicit): for every index at or past the length of the stored
list, `removeFeed` persists the list unchanged — the out-of-range
`splice(index, 1)` removes nothing — and then throws a TypeError while
formatting the success message, because `currentFeeds[index]` is `undefined`
and `.substring` is called on it. -/
theorem removeFeed_out_of_range (feeds : List String) (index : Nat)
    (h : feeds.length ≤ index) :
    (removeFeed feeds index).persisted = feeds ∧
    (removeFeed feeds index).threw = true := by
  have hg : feeds[index]? = none := List.getElem?_eq_none h
  have ht : feeds.take index = feeds := List.take_of_length_le h
  have hd : feeds.drop (index + 1) = [] := List.drop_eq_nil_of_le (by omega)
  simp [removeFeed, hg, ht, hd]

theorem removeFeed_out_of_range_witness :
    (["https://a.example/rss", "https://b.example/rss"].length ≤ 5) ∧
    (removeFeed ["https://a.example/rss", "https://b.example/rss"] 5).persisted =
      ["https://a.example/rss", "https://b.example/rss"] ∧
    (removeFeed ["https://a.example/rss", "https://b.example/rss"] 5).threw = true :=
  ⟨by decide,
    removeFeed_out_of_range ["https://a.example/rss", "https://b.example/rss"] 5
      (by decide)⟩

/-! ## Aggregator theorems -/

/-- C6: invoked with an empty URL list, `loadAllFeeds` shows the
"No feeds configured" warning, clears the feed container (empty state), and
returns before any `loadFeed` call, so zero fetch requests are issued. -/
theorem loadAllFeeds_empty_input (pd : String → Option Int)
    (env : String → Nat → AttemptOutcome) (hostname : String → String)
    (fuel : Nat) :
    loadAllFeeds pd env hostname fuel [] =
      some ⟨.emptyCleared,
        ("No feeds configured. Open Settings to add a URL.", .warning), 0⟩ := rfl

theorem runOne_failure (env : String → Nat → AttemptOutcome)
    (hostname : String → String) {fuel : Nat} (u : String)
    (hf : ∀ n, isFailing (env u n) = true) (hfuel : 3 ≤ fuel) :
    ∃ n, runOne env hostname fuel u = some (.failure, n) := by
  by_cases hu : u = ""
  · exact ⟨0, by simp [runOne, loadFeed, hu]⟩
  · exact ⟨3, by simp [runOne, loadFeed_allFail (env u) hostname u hu hf hfuel]⟩

theorem runAll_allFail (env : String → Nat → AttemptOutcome)
    (hostname : String → String) {fuel : Nat} (hfuel : 3 ≤ fuel) :
    ∀ urls : List String, (∀ u ∈ urls, ∀ n, isFailing (env u n) = true) →
      ∃ results, runAll env hostname fuel urls = some results ∧
        successesOf results = []
  | [], _ => ⟨[], rfl, rfl⟩
  | u :: us, h => by
    obtain ⟨n, hn⟩ := runOne_failure env hostname u (h u (by simp)) hfuel
    obtain ⟨rs, hrs, hsucc⟩ :=
      runAll_allFail env hostname hfuel us (fun v hv => h v (by simp [hv]))
    refine ⟨(.failure, n) :: rs, by simp [runAll, hn, hrs], ?_⟩
    simpa [successesOf] using hsucc

/-- C5: for every non-empty URL list whose every Fetcher call fails after
all retries, `loadAllFeeds` completes normally (no exception reaches the
caller: the result is `some`), renders the empty state, and surfaces the
error message naming retry exhaustion. -/
theorem loadAllFeeds_total_failure (pd : String → Option Int)
    (env : String → Nat → AttemptOutcome) (hostname : String → String)
    (fuel : Nat) (urls : List String) (hne : urls ≠ []) (hfuel : 3 ≤ fuel)
    (hf : ∀ u ∈ urls, ∀ n, isFailing (env u n) = true) :
    ∃ res, loadAllFeeds pd env hostname fuel urls = some res ∧
      res.container = .emptyState ∧
      res.message =
        ("Failed to load any of the requested feeds after all retries. Open Settings to verify URLs.",
          .error) := by
  obtain ⟨results, hr, hs⟩ := runAll_allFail env hostname hfuel urls hf
  have hne' : urls.isEmpty = false := by
    cases urls with
    | nil => exact absurd rfl hne
    | cons a l => rfl
  refine ⟨⟨renderFeed [] [],
    ("Failed to load any of the requested feeds after all retries. Open Settings to verify URLs.",
      .error), (results.map fun p => p.2).sum⟩, ?_, rfl, rfl⟩
  simp [loadAllFeeds, hne', hr, hs]

theorem loadAllFeeds_total_failure_witness :
    ((["https://a.example/rss"] : List String) ≠ [] ∧ 3 ≤ 3 ∧
      ∀ u ∈ (["https://a.example/rss"] : List String), ∀ n : Nat,
        isFailing ((fun _ _ => AttemptOutcome.httpError) u n) = true) ∧
    ∃ res, loadAllFeeds (fun _ => none) (fun _ _ => AttemptOutcome.httpError)
        (fun _ => "a.example") 3 ["https://a.example/rss"] = some res ∧
      res.container = .emptyState ∧
      res.message =
        ("Failed to load any of the requested feeds after all retries. Open Settings to verify URLs.",
          .error) :=
  ⟨⟨by decide, by decide, fun _ _ _ => rfl⟩,
    loadAllFeeds_total_failure (fun _ => none) (fun _ _ => AttemptOutcome.httpError)
      (fun _ => "a.example") 3 ["https://a.example/rss"]
      (by decide) (by decide) (fun _ _ _ => rfl)⟩

theorem loadFeedLoop_success_stamped (env : Nat → AttemptOutcome)
    (hostname : String → String) (url : String) :
    ∀ fuel fetches attempt waits f its n w,
      loadFeedLoop env hostname url fetches attempt waits fuel =
        .finished (.success f its) n w →
      ∀ it ∈ its, it.feedTitle.isSome
  | 0, fetches, attempt, waits, f, its, n, w => by
    intro h
    simp [loadFeedLoop] at h
  | fuel+1, fetches, attempt, waits, f, its, n, w => by
    intro h it hit
    rw [loadFeedLoop] at h
    by_cases ha : attempt < MAX_RETRIES
    · rw [if_pos ha] at h
      cases hc : attemptClass (env fetches) with
      | success f' items' =>
        rw [hc] at h
        obtain ⟨hr, -, -⟩ := LoopOutcome.finished.inj h
        obtain ⟨-, hits⟩ := LoadResult.success.inj hr
        subst hits
        simp only [stampItems, List.mem_map] at hit
        obtain ⟨a, -, rfl⟩ := hit
        rfl
      | caught =>
        rw [hc] at h
        by_cases hm : attempt + 1 ≥ MAX_RETRIES
        · rw [if_pos hm] at h
          exact absurd (LoopOutcome.finished.inj h).1 (by simp)
        · rw [if_neg hm] at h
          exact loadFeedLoop_success_stamped env hostname url fuel _ _ _ f its n w h it hit
      | weird =>
        rw [hc] at h
        exact loadFeedLoop_success_stamped env hostname url fuel _ _ _ f its n w h it hit
    · rw [if_neg ha] at h
      exact absurd (LoopOutcome.finished.inj h).1 (by simp)

theorem loadFeed_success_stamped (env : Nat → AttemptOutcome)
    (hostname : String → String) (url : String) (fuel : Nat)
    (f : Feed) (its : List Item) (n : Nat) (w : List Nat)
    (h : loadFeed env hostname url fuel = .finished (.success f its) n w) :
    ∀ it ∈ its, it.feedTitle.isSome := by
  rw [loadFeed] at h
  by_cases hu : url = ""
  · rw [if_pos hu] at h
    exact absurd (LoopOutcome.finished.inj h).1 (by simp)
  · rw [if_neg hu] at h
    exact loadFeedLoop_success_stamped env hostname url fuel 0 0 [] f its n w h

theorem successesOf_runAll (env : String → Nat → AttemptOutcome)
    (hostname : String → String) (fuel : Nat) :
    ∀ urls results, runAll env hostname fuel urls = some results →
      successesOf results = urls.filterMap (succOf env hostname fuel)
  | [], results, h => by
    simp only [runAll, Option.some.injEq] at h
    subst h
    rfl
  | u :: us, results, h => by
    rw [runAll] at h
    cases hlf : loadFeed (env u) hostname u fuel with
    | outOfFuel a b c =>
      rw [show runOne env hostname fuel u = none by simp [runOne, hlf]] at h
      exact absurd h (by simp)
    | finished r nn ww =>
      rw [show runOne env hostname fuel u = some (r, nn) by simp [runOne, hlf]] at h
      cases hra : runAll env hostname fuel us with
      | none => rw [hra] at h; exact absurd h (by simp)
      | some ps =>
        rw [hra] at h
        obtain rfl : (r, nn) :: ps = results := by simpa using h
        have ih := successesOf_runAll env hostname fuel us ps hra
        cases r with
        | success f its =>
          have hs : succOf env hostname fuel u = some (f, its) := by
            simp [succOf, hlf]
          simp [successesOf, List.filterMap_cons, hs] at ih ⊢
          exact ih
        | failure =>
          have hs : succOf env hostname fuel u = none := by
            simp [succOf, hlf]
          simp [successesOf, List.filterMap_cons, hs] at ih ⊢
          exact ih

theorem renderedSeq_renderFeed (items : List Item) (feeds : List Feed) :
    renderedSeq (renderFeed items feeds) = items := by
  by_cases h : items.isEmpty
  · rw [renderFeed, if_pos h]
    rw [List.isEmpty_iff] at h
    simp [renderedSeq, h]
  · rw [renderFeed, if_neg h]
    rfl

/-- C1: when at least one feed of a URL list succeeds, the sequence rendered
by `loadAllFeeds` is a permutation of — i.e. equal as a multiset to, with
nothing dropped, duplicated or invented — the concatenation of the article
sequences of the succeeding feeds, and every rendered article carries a
source-feed title stamped by the Fetcher (`feedTitle` is non-null). -/
theorem loadAllFeeds_renders_exactly_successes (pd : String → Option Int)
    (env : String → Nat → AttemptOutcome) (hostname : String → String)
    (fuel : Nat) (urls : List String) (res : AggResult)
    (hres : loadAllFeeds pd env hostname fuel urls = some res)
    (hone : ∃ u ∈ urls, (succOf env hostname fuel u).isSome) :
    (renderedSeq res.container).Perm (successItems env hostname fuel urls) ∧
    ∀ it ∈ renderedSeq res.container, it.feedTitle.isSome := by
  obtain ⟨u, hu, hsu⟩ := hone
  have hne' : urls.isEmpty = false := by
    cases urls with
    | nil => simp at hu
    | cons a l => rfl
  rw [loadAllFeeds, hne'] at hres
  simp only [Bool.false_eq_true, if_false] at hres
  cases hra : runAll env hostname fuel urls with
  | none => rw [hra] at hres; exact absurd hres (by simp)
  | some results =>
    rw [hra] at hres
    have hbridge := successesOf_runAll env hostname fuel urls results hra
    have hlen : 0 < (successesOf results).length := by
      obtain ⟨p, hp⟩ := Option.isSome_iff_exists.mp hsu
      have hmem : p ∈ urls.filterMap (succOf env hostname fuel) :=
        List.mem_filterMap.mpr ⟨u, hu, hp⟩
      rw [← hbridge] at hmem
      exact List.length_pos.mpr (List.ne_nil_of_mem hmem)
    simp only [gt_iff_lt, hlen, if_true] at hres
    obtain rfl : _ = res := by simpa using hres
    constructor
    · rw [renderedSeq_renderFeed]
      refine (List.perm_insertionSort _ _).trans ?_
      rw [successItems, ← hbridge]
    · intro it hit
      rw [renderedSeq_renderFeed] at hit
      rw [jsSortItems, List.mem_insertionSort, List.mem_flatten] at hit
      obtain ⟨l, hl, hitl⟩ := hit
      rw [List.mem_map] at hl
      obtain ⟨p, hp, rfl⟩ := hl
      rw [hbridge, List.mem_filterMap] at hp
      obtain ⟨v, -, hv⟩ := hp
      rw [succOf] at hv
      cases hlf : loadFeed (env v) hostname v fuel with
      | finished r nn ww =>
        rw [hlf] at hv
        cases r with
        | success f its =>
          obtain rfl : (f, its) = p := by simpa using hv
          exact loadFeed_success_stamped (env v) hostname v fuel f its nn ww hlf it hitl
        | failure => simp at hv
      | outOfFuel a b c => rw [hlf] at hv; simp at hv

theorem loadAllFeeds_renders_exactly_successes_witness :
    (∃ u ∈ (["https://a.example/rss"] : List String),
      (succOf (fun _ _ => .payload ⟨"ok", some ⟨"Feed A"⟩,
          some [⟨"T1", "L1", "D1", none⟩]⟩) (fun _ => "a.example") 1 u).isSome) ∧
    ∃ res, loadAllFeeds (fun _ => none)
        (fun _ _ => .payload ⟨"ok", some ⟨"Feed A"⟩, some [⟨"T1", "L1", "D1", none⟩]⟩)
        (fun _ => "a.example") 1 ["https://a.example/rss"] = some res ∧
      ((renderedSeq res.container).Perm
        (successItems (fun _ _ => .payload ⟨"ok", some ⟨"Feed A"⟩,
          some [⟨"T1", "L1", "D1", none⟩]⟩) (fun _ => "a.example") 1
          ["https://a.example/rss"]) ∧
       ∀ it ∈ renderedSeq res.container, it.feedTitle.isSome) :=
  ⟨⟨"https://a.example/rss", by decide, by decide⟩,
    ⟨_, rfl, loadAllFeeds_renders_exactly_successes (fun _ => none)
      (fun _ _ => .payload ⟨"ok", some ⟨"Feed A"⟩, some [⟨"T1", "L1", "D1", none⟩]⟩)
      (fun _ => "a.example") 1 ["https://a.example/rss"] _ rfl
      ⟨"https://a.example/rss", by decide, by decide⟩⟩⟩

/-! ## Sort-order theorems -/

theorem getD_eq_get {l : List Item} {n : Nat} (h : n < l.length) :
    l.getD n dummyItem = l.get ⟨n, h⟩ := by
  rw [List.getD_eq_getElem?_getD, List.getElem?_eq_getElem h]
  rfl

theorem sortedByDateDesc_nil (pd : String → Option Int) :
    sortedByDateDesc pd [] := by
  intro i hi
  simp at hi

theorem sortedByDateDesc_insertionSort (pd : String → Option Int)
    (hpd : ∀ s, (pd s).isSome) (l : List Item) :
    sortedByDateDesc pd (jsSortItems pd l) := by
  have hdate : ∀ a : Item, ∃ d, pd a.pubDate = some d := fun a =>
    Option.isSome_iff_exists.mp (hpd a.pubDate)
  haveI htot : IsTotal Item (fun a b => jsLe pd a b = true) := by
    constructor
    intro a b
    obtain ⟨da, ha⟩ := hdate a
    obtain ⟨db, hb⟩ := hdate b
    simp only [jsLe, jsCmp, ha, hb, decide_eq_true_eq]
    omega
  haveI htrans : IsTrans Item (fun a b => jsLe pd a b = true) := by
    constructor
    intro a b c
    obtain ⟨da, ha⟩ := hdate a
    obtain ⟨db, hb⟩ := hdate b
    obtain ⟨dc, hc⟩ := hdate c
    simp only [jsLe, jsCmp, ha, hb, hc, decide_eq_true_eq]
    omega
  have hs := List.sorted_insertionSort (fun a b => jsLe pd a b = true) l
  rw [List.Sorted, List.pairwise_iff_get] at hs
  have hs' : ∀ i j : Fin (jsSortItems pd l).length, i < j →
      jsLe pd ((jsSortItems pd l).get i) ((jsSortItems pd l).get j) = true := hs
  intro i hi j hj hgt
  by_contra hij
  rw [getD_eq_get hi, getD_eq_get hj] at hgt
  obtain ⟨da, ha⟩ := hdate ((jsSortItems pd l).get ⟨i, hi⟩)
  obtain ⟨db, hb⟩ := hdate ((jsSortItems pd l).get ⟨j, hj⟩)
  rw [dateGT, ha, hb, decide_eq_true_eq] at hgt
  rcases Nat.lt_or_ge j i with hji | hji
  · have hle := hs' ⟨j, hj⟩ ⟨i, hi⟩ hji
    simp only [jsLe, jsCmp, ha, hb, decide_eq_true_eq] at hle
    omega
  · have : i = j := by omega
    subst this
    rw [ha] at hb
    obtain rfl : da = db := by simpa using hb
    omega

/-- C4 counterexample: a single succeeding feed delivers four articles whose
timestamps parse as 2, 1, NaN (unparsable), 5; the rendered sequence keeps
the article with timestamp 1 (position 1) ahead of the article with
timestamp 5 (position 3), because the unparsable timestamp makes the
comparator inconsistent, so the claimed pairwise ordering over parseable
timestamps fails. -/
theorem rendered_sort_pairwise_counterexample :
    ¬ sortedByDateDesc
        (fun s => if s = "d1" then some 1 else if s = "d2" then some 2
          else if s = "d5" then some 5 else none)
        (renderedOf (loadAllFeeds
          (fun s => if s = "d1" then some 1 else if s = "d2" then some 2
            else if s = "d5" then some 5 else none)
          (fun _ _ => .payload ⟨"ok", some ⟨"F"⟩,
            some [⟨"A2", "l2", "d2", none⟩, ⟨"A1", "l1", "d1", none⟩,
              ⟨"AN", "lN", "dN", none⟩, ⟨"A5", "l5", "d5", none⟩]⟩)
          (fun _ => "h") 1 ["u"])) := by
  intro h
  have := h 3 (by decide) 1 (by decide) (by decide)
  omega

/-- C4 amended: the rendered merged sequence satisfies the claimed pairwise
ordering — an article with a strictly greater parseable timestamp appears
earlier — whenever every timestamp parses, so that the comparator is
consistent. (With an unparsable timestamp in the sequence, the comparator
returns 0 against it and a stable comparator sort may leave two parseable
timestamps out of order, as the counterexample shows.) -/
theorem rendered_sorted_when_all_dates_parse (pd : String → Option Int)
    (env : String → Nat → AttemptOutcome) (hostname : String → String)
    (fuel : Nat) (urls : List String) (res : AggResult)
    (hpd : ∀ s, (pd s).isSome)
    (hres : loadAllFeeds pd env hostname fuel urls = some res) :
    sortedByDateDesc pd (renderedSeq res.container) := by
  rw [loadAllFeeds] at hres
  by_cases hne : urls.isEmpty
  · rw [if_pos hne] at hres
    obtain rfl : _ = res := by simpa using hres
    exact sortedByDateDesc_nil pd
  · rw [if_neg hne] at hres
    cases hra : runAll env hostname fuel urls with
    | none => rw [hra] at hres; exact absurd hres (by simp)
    | some results =>
      rw [hra] at hres
      by_cases hlen : 0 < (successesOf results).length
      · simp only [gt_iff_lt, hlen, if_true] at hres
        obtain rfl : _ = res := by simpa using hres
        rw [renderedSeq_renderFeed]
        exact sortedByDateDesc_insertionSort pd hpd _
      · simp only [gt_iff_lt, hlen, if_false] at hres
        obtain rfl : _ = res := by simpa using hres
        rw [renderedSeq_renderFeed]
        exact sortedByDateDesc_nil pd

theorem rendered_sorted_when_all_dates_parse_witness :
    (∀ s : String, ((fun _ : String => some (0 : Int)) s).isSome) ∧
    ∃ res, loadAllFeeds (fun _ => some 0)
        (fun _ _ => .payload ⟨"ok", some ⟨"F"⟩, some [⟨"A", "l", "d", none⟩]⟩)
        (fun _ => "h") 1 ["u"] = some res ∧
      sortedByDateDesc (fun _ => some 0) (renderedSeq res.container) :=
  ⟨fun _ => rfl,
    ⟨_, rfl, rendered_sorted_when_all_dates_parse (fun _ => some 0)
      (fun _ _ => .payload ⟨"ok", some ⟨"F"⟩, some [⟨"A", "l", "d", none⟩]⟩)
      (fun _ => "h") 1 ["u"] _ (fun _ => rfl) rfl⟩⟩

end FluffRead
